import Mathlib

/-!
Verification of the mirror-and-publish pipeline of the fabric-devbox tools.

The definitions below are shallow embeddings of the Python sources:
* `fabric-tools/upload_wheel_to_fabric.py` (the Uploader and the publish
  Orchestrator, class FabricEnvironmentManager),
* `fabric-tools/jfrog_to_fabric_sync.py` and
  `fabric-tools/azure_devops_to_fabric_sync.py` (the mirror pipelines with
  their MirrorState ledger, download cache and per-entry processing loop).

Network and filesystem effects are made explicit: each network call's
observable outcome is an input to the embedded function, and the filesystem
touched by a download is a two-path state (final destination and the
".part" sibling) acted on by a trace of primitive operations.
-/

namespace FabricSync

/-! ## The mirror ledger (class MirrorState in both sync scripts)

The Python ledger is a JSON dict mapping the single string
`f"{pkg_name}:{filename}"` to a record `{sha256, uploaded, upload_meta, ts}`.
We model the dict as an association list consulted front-first; `mark_uploaded`
prepends the fresh record, which gives the same lookup semantics as Python's
key overwrite. -/

/-- Result dict returned by `upload_wheel` / `_attempt_upload`. -/
structure UploadResult where
  success : Bool
  error : Option String
  message : Option String
  status_code : Option Nat
  wheel_name : String
deriving DecidableEq, Repr

/-- One record of the ledger: `{"sha256": ..., "uploaded": ..., "upload_meta": ..., "ts": ...}`. -/
structure LedgerRec where
  sha256 : String
  uploaded : Bool
  upload_meta : Option UploadResult
  ts : Nat
deriving DecidableEq, Repr

/-- The in-memory ledger `MirrorState._data`. -/
abbrev Ledger := List (String × LedgerRec)

/-- The addressing scheme of the ledger: `key = f"{pkg_name}:{filename}"`. -/
def ledgerKey (pkg_name filename : String) : String :=
  pkg_name ++ ":" ++ filename

/-- `MirrorState.is_uploaded` (identical in both sync scripts):
`rec = self._data.get(key); return bool(rec and rec.get("sha256") == sha256 and rec.get("uploaded") is True)`. -/
def is_uploaded (st : Ledger) (pkg_name filename sha256 : String) : Bool :=
  match st.lookup (ledgerKey pkg_name filename) with
  | none => false
  | some rec => rec.sha256 == sha256 && rec.uploaded

/-- `MirrorState.mark_uploaded`: `self._data[key] = {"sha256": ..., "uploaded": True, ...}`
followed by a synchronous save (persistence is not modelled; the in-memory
map is). -/
def mark_uploaded (st : Ledger) (pkg_name filename sha256 : String)
    (upload_meta : Option UploadResult) (ts : Nat) : Ledger :=
  (ledgerKey pkg_name filename, ⟨sha256, true, upload_meta, ts⟩) :: st

/-! ## Distribution entries and extension filtering -/

/-- One resolved candidate: `{"url": ..., "filename": ...}`. -/
structure Entry where
  url : String
  filename : String
deriving DecidableEq, Repr

/-- `VALID_DISTS = (".whl", ".tar.gz", ".zip")` in both sync scripts. -/
def VALID_DISTS : List String := [".whl", ".tar.gz", ".zip"]

/-- Python's `s.lower().endswith(suffix)` on ASCII filenames. -/
def lowerEndsWith (s suffix : String) : Bool :=
  suffix.data.isSuffixOf (s.data.map Char.toLower)

/-- Python's `e["filename"].lower().endswith(VALID_DISTS)` (tuple argument:
any of the suffixes). -/
def isValidDist (filename : String) : Bool :=
  VALID_DISTS.any (fun ext => lowerEndsWith filename ext)

/-- The filter line `entries = [e for e in entries if e["filename"].lower().endswith(VALID_DISTS)]`. -/
def filterEntries (entries : List Entry) : List Entry :=
  entries.filter (fun e => isValidDist e.filename)

/-! ## The Uploader (`FabricEnvironmentManager.upload_wheel`)

`upload_wheel(wheel_path, max_retries)` first raises `FileNotFoundError` when
the path does not exist, then runs `for attempt in range(max_retries)`,
calling `_attempt_upload` each round.  A round's observable outcome is either
the result dict returned by `_attempt_upload` or an exception it raised; we
pass the sequence of outcomes as a function of the 0-based attempt index. -/

/-- Observable outcome of one `_attempt_upload` call. -/
inductive AttemptOutcome
  | result (r : UploadResult)
  | exn (e : String)
deriving DecidableEq, Repr

/-- The retry loop of `upload_wheel`, started at attempt index `a`.
Returns the result dict, the list of backoff sleeps performed (in seconds),
and the number of `_attempt_upload` calls made. -/
def uploadLoop (attempts : Nat → AttemptOutcome) (max_retries : Nat)
    (wheel_name : String) (a : Nat) : UploadResult × List Nat × Nat :=
  if h : a < max_retries then
    match attempts a with
    | .result r =>
      if r.success then (r, [], 1)
      else if a = max_retries - 1 then (r, [], 1)
      else
        let res := uploadLoop attempts max_retries wheel_name (a + 1)
        (res.1, 2 ^ a :: res.2.1, res.2.2 + 1)
    | .exn e =>
      if a = max_retries - 1 then
        (⟨false, some ("Upload failed after " ++ toString max_retries ++ " attempts: " ++ e),
          none, none, wheel_name⟩, [], 1)
      else
        let res := uploadLoop attempts max_retries wheel_name (a + 1)
        (res.1, 2 ^ a :: res.2.1, res.2.2 + 1)
  else
    -- the `for` loop body never ran (only reachable when max_retries = 0):
    -- fall through to the final `return {'success': False, ...}`
    (⟨false, some ("Upload failed after " ++ toString max_retries ++ " attempts"),
      none, none, wheel_name⟩, [], 0)
termination_by max_retries - a
decreasing_by all_goals omega

/-- `upload_wheel`: the missing-file precondition raises `FileNotFoundError`
(modelled as `Except.error`); otherwise the retry loop runs and its result
dict is returned as a value. -/
def upload_wheel (fileExists : Bool) (attempts : Nat → AttemptOutcome)
    (max_retries : Nat) (wheel_name : String) :
    Except String (UploadResult × List Nat × Nat) :=
  if fileExists then
    .ok (uploadLoop attempts max_retries wheel_name 0)
  else
    .error ("Wheel file not found: " ++ wheel_name)

/-- An attempt outcome that is a failure: `_attempt_upload` returned a dict
with `success = False`, or raised. -/
def attemptFails : AttemptOutcome → Prop
  | .result r => r.success = false
  | .exn _ => True

instance (o : AttemptOutcome) : Decidable (attemptFails o) := by
  cases o <;> simp [attemptFails] <;> infer_instance

/-! ## The per-entry loop of the mirror pipelines

The body of `for e in entries:` in `mirror_package_from_jfrog` and
`mirror_package_from_azure` (the two are line-for-line identical):
download when not cached (a failed download continues to the next entry),
hash, consult the ledger, apply the wheels-only upload policy, upload,
record on success.  The outcome of each external call is an input. -/

/-- Observable outcome of the `fabric_mgr.upload_wheel(...)` call made by the
pipeline: it returned a result dict, or raised (caught by the pipeline). -/
inductive UploadCall
  | ret (r : UploadResult)
  | exn (e : String)
deriving DecidableEq, Repr

/-- The environment of one loop iteration: whether
`os.path.exists(local_path)` held, whether the download (if attempted)
succeeded, the `sha256_of_file` digest of the cached file, the outcome of the
uploader call (if reached) and the `int(time.time())` stamp. -/
structure EntryEnv where
  cached : Bool
  downloadOk : Bool
  digest : String
  upload : UploadCall
  ts : Nat

/-- How one entry's iteration ended. -/
inductive EntryAction
  | downloadFailed
  | skippedAlready
  | skippedNonWheel
  | uploaded
  | uploadFailed
  | uploadRaised
deriving DecidableEq, Repr

/-- Result of one loop iteration: the new ledger, the action taken, how many
times the Uploader was invoked, and how many downloads were attempted. -/
structure EntryOutcome where
  state : Ledger
  action : EntryAction
  uploadCalls : Nat
  downloadCalls : Nat
deriving Repr

/-- One iteration of `for e in entries:` in the mirror pipelines. -/
def processEntry (st : Ledger) (pkg_name : String) (e : Entry) (env : EntryEnv)
    (upload_wheels_only : Bool) : EntryOutcome :=
  let dl : Nat := if env.cached then 0 else 1
  if !env.cached && !env.downloadOk then
    ⟨st, .downloadFailed, 0, dl⟩
  else if is_uploaded st pkg_name e.filename env.digest then
    ⟨st, .skippedAlready, 0, dl⟩
  else if upload_wheels_only && !(lowerEndsWith e.filename ".whl") then
    ⟨st, .skippedNonWheel, 0, dl⟩
  else
    match env.upload with
    | .ret r =>
      if r.success then
        ⟨mark_uploaded st pkg_name e.filename env.digest (some r) env.ts, .uploaded, 1, dl⟩
      else ⟨st, .uploadFailed, 1, dl⟩
    | .exn _ => ⟨st, .uploadRaised, 1, dl⟩

/-- The whole `for e in entries:` loop, threading the ledger; `envs i` is the
environment of the i-th iteration. -/
def processEntries (st : Ledger) (pkg_name : String) (entries : List Entry)
    (envs : Nat → EntryEnv) (upload_wheels_only : Bool) (i : Nat) :
    Ledger × List EntryAction :=
  match entries with
  | [] => (st, [])
  | e :: rest =>
    let o := processEntry st pkg_name e (envs i) upload_wheels_only
    let r := processEntries o.state pkg_name rest envs upload_wheels_only (i + 1)
    (r.1, o.action :: r.2)

/-! ## The publish Orchestrator
(`publish_environment` and `_wait_for_publish_completion`)

Polling advances wall-clock time by the 10-second sleep after every
non-terminal poll; the loop guard is `time.time() - start_time < max_wait`.
`statuses n` is the observable outcome of the (n+1)-th status GET. -/

/-- Observable outcome of one poll of the operation-status endpoint. -/
inductive PollStatus
  | succeeded
  | failed (err : String)
  | running
  | notStarted
  | other (s : String)
  | httpError (code : Nat)
  | exn (e : String)
deriving DecidableEq, Repr

/-- Result of the publish flow. -/
inductive PublishOutcome
  | success (msg : String)
  | opFailed (err : String)
  | timeoutFailure
  | httpFailure (code : Nat)
deriving DecidableEq, Repr

/-- The polling loop of `_wait_for_publish_completion`; returns the outcome
and the number of status requests issued. -/
def waitLoop (statuses : Nat → PollStatus) (max_wait elapsed n : Nat) :
    PublishOutcome × Nat :=
  if h : elapsed < max_wait then
    match statuses n with
    | .succeeded => (.success "Environment published and active", n + 1)
    | .failed err => (.opFailed ("Publish operation failed: " ++ err), n + 1)
    | _ => waitLoop statuses max_wait (elapsed + 10) (n + 1)
  else
    (.timeoutFailure, n)
termination_by max_wait - elapsed
decreasing_by all_goals omega

/-- `_wait_for_publish_completion(operation_id, max_wait=300)` for a present
operation id. -/
def wait_for_publish_completion (statuses : Nat → PollStatus)
    (max_wait : Nat) : PublishOutcome × Nat :=
  waitLoop statuses max_wait 0 0

/-- The publish POST response: HTTP status and the optional
`x-ms-operation-id` header. -/
structure PublishResponse where
  status_code : Nat
  operationId : Option String
deriving DecidableEq, Repr

/-- `publish_environment`: 200 → immediate success; 202 with an operation id
→ poll; 202 without one → immediate success, zero polls; anything else →
failure with the status code.  Returns the outcome and the number of status
polls issued. -/
def publish_environment (resp : PublishResponse)
    (statuses : Nat → PollStatus) : PublishOutcome × Nat :=
  if resp.status_code = 200 ∨ resp.status_code = 202 then
    if resp.status_code = 202 then
      match resp.operationId with
      | some _ => wait_for_publish_completion statuses 300
      | none => (.success "Environment published successfully (no operation ID)", 0)
    else
      (.success "Environment published successfully", 0)
  else
    (.httpFailure resp.status_code, 0)

/-! ## The download cache (`download_url_to_path`, identical in both scripts)

An attempt opens a streaming GET, writes chunks to `dest_path + ".part"`,
then renames the temp file onto `dest_path` via `shutil.move`.  We model the
filesystem the function touches as the contents of those two paths, and an
attempt as the trace of primitive operations it performs, so that an
interruption at any point is a prefix of the trace. -/

/-- Observable outcome of one download attempt: the full chunk stream
completed, the stream raised after some chunks were written to the temp
file, or the connection failed before the temp file was opened. -/
inductive DlAttempt
  | success (chunks : List Nat)
  | interrupted (written : List Nat) (e : String)
  | connectFailed (e : String)
deriving DecidableEq, Repr

/-- The error message carried by a failed attempt. -/
def dlErr : DlAttempt → Option String
  | .success _ => none
  | .interrupted _ e => some e
  | .connectFailed e => some e

/-- Result of a `download_url_to_path` run: the attempts actually executed,
the backoff sleeps performed, and the exception re-raised on exhaustion. -/
structure DlRun where
  executed : List DlAttempt
  sleeps : List Nat
  raised : Option String
deriving Repr

/-- The retry loop of `download_url_to_path`: `attempts` is the Python
counter (number of attempts already made); the loop runs `while attempts <
max_retries`, re-raises when the failing attempt was the last allowed, and
otherwise sleeps `2 ** (attempts - 1)` seconds. -/
def downloadLoop (att : Nat → DlAttempt) (max_retries k : Nat) : DlRun :=
  if h : k < max_retries then
    match att k with
    | .success cs => ⟨[.success cs], [], none⟩
    | a =>
      if k + 1 ≥ max_retries then
        ⟨[a], [], dlErr a⟩
      else
        let r := downloadLoop att max_retries (k + 1)
        ⟨a :: r.executed, 2 ^ k :: r.sleeps, r.raised⟩
  else
    ⟨[], [], none⟩
termination_by max_retries - k
decreasing_by all_goals omega

/-- `download_url_to_path(session, url, dest_path, max_retries=3)`. -/
def download_url_to_path (att : Nat → DlAttempt) (max_retries : Nat) : DlRun :=
  downloadLoop att max_retries 0

/-- A failing download attempt (the `except` branch is taken). -/
def dlFails : DlAttempt → Prop
  | .success _ => False
  | .interrupted _ _ => True
  | .connectFailed _ => True

instance (a : DlAttempt) : Decidable (dlFails a) := by
  cases a <;> simp [dlFails] <;> infer_instance

/-- The temp path of a download: `tmp = dest_path + ".part"`. -/
def partPath (dest_path : String) : String :=
  dest_path ++ ".part"

/-- The two paths `download_url_to_path` writes: `dest_path` and the sibling
`dest_path + ".part"`. -/
structure FsState where
  dest : Option (List Nat)
  part : Option (List Nat)
deriving DecidableEq, Repr

/-- Primitive filesystem operations of one attempt. -/
inductive FsOp
  | openTrunc            -- `open(tmp, "wb")`: create/truncate the temp file
  | writeChunk (c : Nat) -- `f.write(chunk)` on the temp file
  | movePartToDest       -- `shutil.move(tmp, dest_path)`: atomic rename
deriving DecidableEq, Repr

/-- Effect of one primitive operation on the two-path state. -/
def applyOp (fs : FsState) : FsOp → FsState
  | .openTrunc => ⟨fs.dest, some []⟩
  | .writeChunk c => ⟨fs.dest, fs.part.map (fun l => l ++ [c])⟩
  | .movePartToDest => ⟨fs.part, none⟩

/-- Effect of a trace of operations. -/
def applyOps (fs : FsState) (ops : List FsOp) : FsState :=
  ops.foldl applyOp fs

/-- The operation trace of one attempt: a successful attempt truncates the
temp file, writes every chunk, then renames; an interrupted attempt stops
after the chunks it wrote; a failed connection touches nothing. -/
def attemptOps : DlAttempt → List FsOp
  | .success cs => .openTrunc :: (cs.map FsOp.writeChunk ++ [.movePartToDest])
  | .interrupted ws _ => .openTrunc :: ws.map FsOp.writeChunk
  | .connectFailed _ => []

/-- The full operation trace of a sequence of executed attempts. -/
def downloadOps (l : List DlAttempt) : List FsOp :=
  (l.map attemptOps).flatten

/-! ## The two mirror pipelines and their drivers -/

/-- Input for `mirror_package_from_jfrog`, one package: the outcome of the
`pypi_simple_list` call (the resolved entries, or the exception it raised),
the outcome of the `artifactory_list` fallback, and the per-entry
environments. -/
structure JfrogPkg where
  name : String
  primary : Except String (List Entry)
  fallback : Except String (List Entry)
  envs : Nat → EntryEnv

/-- Per-package report of a mirror pipeline. -/
inductive MirrorReport
  | noDistributions
  | processed (actions : List EntryAction)
deriving DecidableEq, Repr

/-- `mirror_package_from_jfrog`: the simple-index fetch is tried first; on
exception the Artifactory storage listing runs *outside* any try/except, so
its exception propagates out of the function (`Except.error`).  Resolved
entries are filtered and processed. -/
def mirror_package_from_jfrog (st : Ledger) (p : JfrogPkg)
    (upload_wheels_only : Bool) : Except String (Ledger × MirrorReport) :=
  let resolved : Except String (List Entry) :=
    match p.primary with
    | .ok es => .ok es
    | .error _ => p.fallback
  match resolved with
  | .error e => .error e
  | .ok es =>
    let good := filterEntries es
    if good.isEmpty then .ok (st, .noDistributions)
    else
      let r := processEntries st p.name good p.envs upload_wheels_only 0
      .ok (r.1, .processed r.2)

/-- The driver loop of `jfrog_to_fabric_sync.main`: packages are processed
in order; an exception escaping `mirror_package_from_jfrog` aborts the run
(`raised = some e`), leaving the remaining packages unprocessed. -/
def runJfrog (st : Ledger) (pkgs : List JfrogPkg) (upload_wheels_only : Bool) :
    Ledger × List MirrorReport × Option String :=
  match pkgs with
  | [] => (st, [], none)
  | p :: rest =>
    match mirror_package_from_jfrog st p upload_wheels_only with
    | .error e => (st, [], some e)
    | .ok (st1, r) =>
      let rec1 := runJfrog st1 rest upload_wheels_only
      (rec1.1, r :: rec1.2.1, rec1.2.2)

/-- Input for `mirror_package_from_azure`, one package: the outcome of the
first simple-index fetch, of the REST-API feed listing, of the re-tried
simple-index fetch, and the per-entry environments. -/
structure AzurePkg where
  name : String
  primary : Except String (List Entry)
  apiNames : Except String (List String)
  secondTry : Except String (List Entry)
  envs : Nat → EntryEnv

/-- Per-package report of the Azure pipeline. -/
inductive AzureReport
  | enumerationFailed
  | notInFeed
  | noDistributions
  | processed (actions : List EntryAction)
deriving DecidableEq, Repr

/-- Shared tail of `mirror_package_from_azure`: filter and process. -/
def azureProcess (st : Ledger) (p : AzurePkg) (es : List Entry)
    (upload_wheels_only : Bool) : Ledger × AzureReport :=
  let good := filterEntries es
  if good.isEmpty then (st, .noDistributions)
  else
    let r := processEntries st p.name good p.envs upload_wheels_only 0
    (r.1, .processed r.2)

/-- `mirror_package_from_azure`: the fallback block is wrapped in its own
try/except, so a package whose primary fetch raises and whose fallback also
fails is reported and skipped — the function never lets a resolution
exception escape. -/
def mirror_package_from_azure (st : Ledger) (p : AzurePkg)
    (upload_wheels_only : Bool) : Ledger × AzureReport :=
  match p.primary with
  | .ok es => azureProcess st p es upload_wheels_only
  | .error _ =>
    match p.apiNames with
    | .error _ => (st, .enumerationFailed)
    | .ok names =>
      if p.name ∈ names then
        match p.secondTry with
        | .ok es => azureProcess st p es upload_wheels_only
        | .error _ => (st, .enumerationFailed)
      else (st, .notInFeed)

/-- The driver loop of `azure_devops_to_fabric_sync.main`: total — every
package yields a report. -/
def runAzure (st : Ledger) (pkgs : List AzurePkg) (upload_wheels_only : Bool) :
    Ledger × List AzureReport :=
  match pkgs with
  | [] => (st, [])
  | p :: rest =>
    let o := mirror_package_from_azure st p upload_wheels_only
    let r := runAzure o.1 rest upload_wheels_only
    (r.1, o.2 :: r.2)

/-! ## Theorems about the ledger -/

/-- Claim C3: `is_uploaded(pkg, filename, digest)` returns true exactly when
a record exists under the key built from `(pkg, filename)` whose sha256
field equals the digest and whose uploaded field is true; consequently a
stale record holding a different digest for the same `(pkg, filename)`
yields false and does not suppress the new upload. -/
theorem is_uploaded_iff_record_matches (st : Ledger) (pkg filename digest : String) :
    (is_uploaded st pkg filename digest = true ↔
      ∃ rec, st.lookup (ledgerKey pkg filename) = some rec ∧
        rec.sha256 = digest ∧ rec.uploaded = true) ∧
    (∀ rec, st.lookup (ledgerKey pkg filename) = some rec →
      rec.sha256 ≠ digest → is_uploaded st pkg filename digest = false) := by
  constructor
  · unfold is_uploaded
    cases h : st.lookup (ledgerKey pkg filename) with
    | none => simp
    | some rec => simp [h]
  · intro rec h hne
    unfold is_uploaded
    rw [h]
    simp [hne]

theorem is_uploaded_iff_record_matches_witness :
    is_uploaded [("p:f", ⟨"d", true, none, 0⟩)] "p" "f" "d" = true ∧
    is_uploaded [("p:f", ⟨"old", true, none, 0⟩)] "p" "f" "new" = false := by
  constructor
  · exact (is_uploaded_iff_record_matches [("p:f", ⟨"d", true, none, 0⟩)] "p" "f" "d").1.mpr
      ⟨⟨"d", true, none, 0⟩, by decide, rfl, rfl⟩
  · exact (is_uploaded_iff_record_matches [("p:f", ⟨"old", true, none, 0⟩)] "p" "f" "new").2
      ⟨"old", true, none, 0⟩ (by decide) (by decide)

/-- Claim C5: after `mark_uploaded(pkg, filename, digest, meta)`,
`is_uploaded(pkg, filename, digest)` returns true, and a second pipeline
pass over a cached copy of the same entry short-circuits on the ledger:
its iteration ends in `skippedAlready` with zero Uploader invocations. -/
theorem mark_uploaded_roundtrip_short_circuit
    (st : Ledger) (pkg filename digest : String) (meta : Option UploadResult) (ts : Nat) :
    is_uploaded (mark_uploaded st pkg filename digest meta ts) pkg filename digest = true ∧
    (∀ (e : Entry) (env : EntryEnv) (w : Bool),
      e.filename = filename → env.digest = digest → env.cached = true →
      processEntry (mark_uploaded st pkg filename digest meta ts) pkg e env w =
        ⟨mark_uploaded st pkg filename digest meta ts, .skippedAlready, 0, 0⟩) := by
  have h1 : is_uploaded (mark_uploaded st pkg filename digest meta ts) pkg filename digest = true := by
    simp [is_uploaded, mark_uploaded, List.lookup]
  refine ⟨h1, ?_⟩
  intro e env w hf hd hc
  simp [processEntry, hc, hf, hd, h1]

theorem mark_uploaded_roundtrip_short_circuit_witness :
    is_uploaded (mark_uploaded [] "p" "f.whl" "d" none 0) "p" "f.whl" "d" = true ∧
    processEntry (mark_uploaded [] "p" "f.whl" "d" none 0) "p" ⟨"u", "f.whl"⟩
      ⟨true, true, "d", .ret ⟨true, none, none, none, ""⟩, 0⟩ true =
      ⟨mark_uploaded [] "p" "f.whl" "d" none 0, .skippedAlready, 0, 0⟩ :=
  ⟨(mark_uploaded_roundtrip_short_circuit [] "p" "f.whl" "d" none 0).1,
   (mark_uploaded_roundtrip_short_circuit [] "p" "f.whl" "d" none 0).2
     ⟨"u", "f.whl"⟩ ⟨true, true, "d", .ret ⟨true, none, none, none, ""⟩, 0⟩ true rfl rfl rfl⟩

/-- Claim C9: ledger records are addressed by the single string
`pkg + ":" + filename`, so two distinct pairs whose concatenations coincide
alias one record: marking one as uploaded makes the lookup of the other
succeed with the same digest. -/
theorem ledger_key_aliasing (st : Ledger) (p1 f1 p2 f2 digest : String)
    (meta : Option UploadResult) (ts : Nat)
    (hk : ledgerKey p1 f1 = ledgerKey p2 f2) :
    is_uploaded (mark_uploaded st p1 f1 digest meta ts) p2 f2 digest = true := by
  unfold is_uploaded mark_uploaded
  rw [← hk]
  simp [List.lookup]

theorem ledger_key_aliasing_witness :
    ledgerKey "a" "b:c" = ledgerKey "a:b" "c" ∧
    ("a", "b:c") ≠ (("a:b", "c") : String × String) ∧
    is_uploaded (mark_uploaded [] "a" "b:c" "d" none 0) "a:b" "c" "d" = true :=
  ⟨by decide, by decide, ledger_key_aliasing [] "a" "b:c" "a:b" "c" "d" none 0 (by decide)⟩

/-! ## Theorems about the publish Orchestrator -/

/-- Claim C4: against an endpoint reporting Running, Running, Succeeded the
publish polling loop issues exactly 3 status requests and returns success;
against an endpoint reporting Running forever it stops at the 300-second
wall-clock bound (30 polls) with a timeout outcome that is distinct from
the outcome produced for a server-reported Failed status. -/
theorem publish_poll_counts_and_timeout :
    wait_for_publish_completion (fun k => if k < 2 then .running else .succeeded) 300
      = (.success "Environment published and active", 3) ∧
    (∀ statuses : Nat → PollStatus, (∀ k, statuses k = .running) →
      wait_for_publish_completion statuses 300 = (.timeoutFailure, 30) ∧
      ∀ err, (PublishOutcome.timeoutFailure : PublishOutcome) ≠ .opFailed err) := by
  constructor
  · simp [wait_for_publish_completion, waitLoop]
  · intro statuses h
    refine ⟨?_, by intro err hcontra; cases hcontra⟩
    have hs : statuses = fun _ => .running := funext h
    subst hs
    simp [wait_for_publish_completion, waitLoop]

theorem publish_poll_counts_and_timeout_witness :
    wait_for_publish_completion (fun _ => .running) 300 = (.timeoutFailure, 30) :=
  ((publish_poll_counts_and_timeout).2 (fun _ => .running) (fun _ => rfl)).1

/-- Claim C10: a publish request answered 202 without an
`x-ms-operation-id` header returns an immediate success result and issues
zero operation-status polls, whatever the operation endpoint would have
reported. -/
theorem publish_202_without_operation_id (statuses : Nat → PollStatus) :
    publish_environment ⟨202, none⟩ statuses
      = (.success "Environment published successfully (no operation ID)", 0) := by
  simp [publish_environment]

/-! ## Theorems about the retry loops -/

theorem range_pow_shift (n a : Nat) :
    (List.range (n + 1)).map (fun k => 2 ^ (k + a))
      = 2 ^ a :: (List.range n).map (fun k => 2 ^ (k + (a + 1))) := by
  rw [List.range_succ_eq_map, List.map_cons, List.map_map]
  refine congrArg₂ _ (by simp) (List.map_congr_left ?_)
  intro k _
  simp [Function.comp, Nat.succ_eq_add_one]
  ring_nf

/-- When every attempt fails, the Uploader's retry loop started at attempt
index `a` with `n` retries left ahead of the final one performs all allowed
attempts, sleeps the doubling schedule, and returns the outcome of the final
attempt as its value. -/
theorem uploadLoop_exhaust (attempts : Nat → AttemptOutcome) (wheel_name : String)
    (hfail : ∀ k, attemptFails (attempts k)) :
    ∀ n a max_retries, a + n + 1 = max_retries →
      uploadLoop attempts max_retries wheel_name a =
        ((match attempts (max_retries - 1) with
          | .result r => r
          | .exn e =>
            ⟨false, some ("Upload failed after " ++ toString max_retries ++ " attempts: " ++ e),
              none, none, wheel_name⟩),
         (List.range n).map (fun k => 2 ^ (k + a)), n + 1) := by
  intro n
  induction n with
  | zero =>
    intro a max_retries hmr
    have hlast : a = max_retries - 1 := by omega
    subst hlast
    have hlt : max_retries - 1 < max_retries := by omega
    rw [uploadLoop.eq_def, dif_pos hlt]
    rcases hA : attempts (max_retries - 1) with r | e
    · have hs : r.success = false := by
        have := hfail (max_retries - 1); rwa [hA] at this
      simp [hA, hs]
    · simp [hA]
  | succ n ih =>
    intro a max_retries hmr
    have hlt : a < max_retries := by omega
    have hlast : a ≠ max_retries - 1 := by omega
    rw [uploadLoop.eq_def, dif_pos hlt]
    have hrec := ih (a + 1) max_retries (by omega)
    rcases hA : attempts a with r | e
    · have hs : r.success = false := by have := hfail a; rwa [hA] at this
      simp only [hs, if_neg hlast, Bool.false_eq_true, if_false, hrec, range_pow_shift]
    · simp only [if_neg hlast, hrec, range_pow_shift]

/-- When every attempt fails, the download retry loop with `n` retries left
ahead of the final one sleeps the doubling schedule and re-raises the final
attempt's exception. -/
theorem downloadLoop_exhaust (att : Nat → DlAttempt) (hfail : ∀ j, dlFails (att j)) :
    ∀ n k max_retries, k + n + 1 = max_retries →
      (downloadLoop att max_retries k).sleeps = (List.range n).map (fun j => 2 ^ (j + k)) ∧
      (downloadLoop att max_retries k).raised = dlErr (att (max_retries - 1)) := by
  intro n
  induction n with
  | zero =>
    intro k max_retries hmr
    have hkeq : k = max_retries - 1 := by omega
    subst hkeq
    have hlt : max_retries - 1 < max_retries := by omega
    have hlast : max_retries - 1 + 1 ≥ max_retries := by omega
    rw [downloadLoop.eq_def, dif_pos hlt]
    cases hA : att (max_retries - 1) with
    | success cs =>
      have := hfail (max_retries - 1)
      rw [hA] at this
      simp [dlFails] at this
    | interrupted ws e => simp [hA, hlast, dlErr]
    | connectFailed e => simp [hA, hlast, dlErr]
  | succ n ih =>
    intro k max_retries hmr
    have hlt : k < max_retries := by omega
    have hlast : ¬ (k + 1 ≥ max_retries) := by omega
    have hrec := ih (k + 1) max_retries (by omega)
    rw [downloadLoop.eq_def, dif_pos hlt]
    cases hA : att k with
    | success cs =>
      have := hfail k
      rw [hA] at this
      simp [dlFails] at this
    | interrupted ws e =>
      simp [if_neg hlast, hrec.1, hrec.2, range_pow_shift]
    | connectFailed e =>
      simp [if_neg hlast, hrec.1, hrec.2, range_pow_shift]

/-- Claim C1 (amended to paths that exist on disk): for every existing input
path the upload operation communicates all failure as a returned result
value, and with `max_retries = 3` against an endpoint whose every attempt
fails it makes exactly 3 transfer attempts and returns the last failure as
a result value. (For a missing path the operation instead raises
`FileNotFoundError`; see the counterexample.) -/
theorem upload_result_value_and_retry_bound (attempts : Nat → AttemptOutcome)
    (wheel_name : String) (hfail : ∀ k, attemptFails (attempts k)) :
    (∀ max_retries, ∃ out, upload_wheel true attempts max_retries wheel_name = .ok out) ∧
    (∃ r sleeps, upload_wheel true attempts 3 wheel_name = .ok (r, sleeps, 3) ∧
      r.success = false ∧ ∀ r2, attempts 2 = .result r2 → r = r2) := by
  constructor
  · intro max_retries
    exact ⟨uploadLoop attempts max_retries wheel_name 0, by simp [upload_wheel]⟩
  · have h3 := uploadLoop_exhaust attempts wheel_name hfail 2 0 3 rfl
    have h4 : upload_wheel true attempts 3 wheel_name
        = .ok (uploadLoop attempts 3 wheel_name 0) := by simp [upload_wheel]
    rw [h3] at h4
    refine ⟨_, _, h4, ?_, ?_⟩
    · rcases hA : attempts (3 - 1) with r | e
      · have := hfail 2
        rw [show (3 : Nat) - 1 = 2 from rfl] at hA
        rw [hA] at this
        rw [show (2 : Nat) = 3 - 1 from rfl] at hA
        simp [hA]
        exact this
      · simp [hA]
    · intro r2 h2
      rw [show (2 : Nat) = 3 - 1 from rfl] at h2
      simp [h2]

theorem upload_result_value_and_retry_bound_witness :
    ∃ r sleeps, upload_wheel true (fun _ => .exn "boom") 3 "w.whl" = .ok (r, sleeps, 3) ∧
      r.success = false := by
  obtain ⟨r, sleeps, h1, h2, _⟩ :=
    (upload_result_value_and_retry_bound (fun _ => .exn "boom") "w.whl" (fun _ => trivial)).2
  exact ⟨r, sleeps, h1, h2⟩

/-- Claim C1 counterexample: for an input path that does not exist,
`upload_wheel` raises `FileNotFoundError` past the Uploader boundary instead
of returning a result value, so the claim as stated (for every input path,
never raises) is false. -/
theorem upload_missing_file_raises :
    upload_wheel false (fun _ => .result ⟨true, none, none, none, "pkg.whl"⟩) 3 "pkg.whl"
      = .error "Wheel file not found: pkg.whl" := by
  simp [upload_wheel]

/-- Claim C8: in both the download path and the upload path, a failing
retry sequence sleeps the doubling schedule 1, 2, 4, ... from a 1-unit
base (the element at 0-based index i, i.e. after the (i+1)-th failed
attempt, is 2^i), and that schedule is non-decreasing. -/
theorem backoff_sleeps_doubling (attempts : Nat → AttemptOutcome)
    (att : Nat → DlAttempt) (wheel_name : String) (max_retries : Nat)
    (hu : ∀ k, attemptFails (attempts k)) (hd : ∀ k, dlFails (att k)) :
    (uploadLoop attempts max_retries wheel_name 0).2.1
        = (List.range (max_retries - 1)).map (fun k => 2 ^ k) ∧
    (download_url_to_path att max_retries).sleeps
        = (List.range (max_retries - 1)).map (fun k => 2 ^ k) ∧
    List.Pairwise (· ≤ ·) ((List.range (max_retries - 1)).map (fun k => (2 : Nat) ^ k)) := by
  refine ⟨?_, ?_, (List.pairwise_lt_range _).map _
    (fun a b hab => Nat.pow_le_pow_right (by norm_num) hab.le)⟩
  · cases max_retries with
    | zero => rw [uploadLoop.eq_def]; simp
    | succ m =>
      have := uploadLoop_exhaust attempts wheel_name hu m 0 (m + 1) (by omega)
      simp [this]
  · cases max_retries with
    | zero => simp [download_url_to_path, downloadLoop.eq_def]
    | succ m =>
      have := (downloadLoop_exhaust att hd m 0 (m + 1) (by omega)).1
      simp [download_url_to_path, this]

theorem backoff_sleeps_doubling_witness :
    (uploadLoop (fun _ => .result ⟨false, none, none, none, ""⟩) 3 "w" 0).2.1 = [1, 2] ∧
    (download_url_to_path (fun _ => .connectFailed "e") 3).sleeps = [1, 2] := by
  have h := backoff_sleeps_doubling (fun _ => .result ⟨false, none, none, none, ""⟩)
    (fun _ => .connectFailed "e") "w" 3 (fun _ => rfl) (fun _ => trivial)
  exact ⟨h.1.trans (by decide), h.2.1.trans (by decide)⟩

/-! ## Theorems about filtering and the upload policy -/

/-- A non-wheel filename never reaches the Uploader when the wheels-only
policy is on. -/
theorem processEntry_nonwheel_no_upload (st : Ledger) (pkg : String)
    (e : Entry) (env : EntryEnv) (hw : lowerEndsWith e.filename ".whl" = false) :
    (processEntry st pkg e env true).uploadCalls = 0 := by
  by_cases h2 : is_uploaded st pkg e.filename env.digest
  all_goals by_cases h1 : env.cached
  all_goals by_cases h3 : env.downloadOk
  all_goals simp [processEntry, hw, h1, h2, h3]

/-- Claim C7: only filenames ending (case-insensitively) in .whl, .tar.gz or
.zip survive the extension filter (of the three example entries only the
first two do), and under the default wheels-only policy an entry reaches the
Uploader only if its filename ends in .whl, while a retained non-wheel entry
is downloaded but skipped at upload time. -/
theorem extension_filter_and_wheels_only_upload :
    (filterEntries [⟨"u1", "pkg-1.0-py3.whl"⟩, ⟨"u2", "pkg-1.0.tar.gz"⟩, ⟨"u3", "pkg-1.0.exe"⟩]
        = [⟨"u1", "pkg-1.0-py3.whl"⟩, ⟨"u2", "pkg-1.0.tar.gz"⟩]) ∧
    (∀ (l : List Entry) (e : Entry),
      e ∈ filterEntries l ↔ e ∈ l ∧ isValidDist e.filename = true) ∧
    (∀ (st : Ledger) (pkg : String) (e : Entry) (env : EntryEnv),
      1 ≤ (processEntry st pkg e env true).uploadCalls →
      lowerEndsWith e.filename ".whl" = true) ∧
    (∀ (st : Ledger) (pkg : String) (e : Entry) (env : EntryEnv),
      lowerEndsWith e.filename ".whl" = false →
      env.cached = false → env.downloadOk = true →
      is_uploaded st pkg e.filename env.digest = false →
      processEntry st pkg e env true = ⟨st, .skippedNonWheel, 0, 1⟩) := by
  refine ⟨by decide, ?_, ?_, ?_⟩
  · intro l e
    simp [filterEntries, List.mem_filter]
  · intro st pkg e env h
    by_cases hw : lowerEndsWith e.filename ".whl" = true
    · exact hw
    · rw [processEntry_nonwheel_no_upload st pkg e env
        (Bool.not_eq_true _ ▸ (by simpa using hw))] at h
      omega
  · intro st pkg e env hw h1 h3 h2
    simp [processEntry, hw, h1, h2, h3]

theorem extension_filter_and_wheels_only_upload_witness :
    processEntry [] "p" ⟨"u2", "pkg-1.0.tar.gz"⟩
      ⟨false, true, "d", .ret ⟨true, none, none, none, ""⟩, 0⟩ true
      = ⟨[], .skippedNonWheel, 0, 1⟩ :=
  (extension_filter_and_wheels_only_upload).2.2.2 [] "p" ⟨"u2", "pkg-1.0.tar.gz"⟩
    ⟨false, true, "d", .ret ⟨true, none, none, none, ""⟩, 0⟩ (by decide) rfl rfl rfl

/-! ## Theorems about batch resilience to resolution failure -/

/-- Claim C2 counterexample: in the JFrog pipeline, a batch of 3 packages
where package 2's primary index fetch raises and its Artifactory fallback
also raises does NOT continue: the exception escapes
`mirror_package_from_jfrog`, the run aborts with only package 1's report
produced, and package 3 is never processed — the failure is fatal to the
run, contrary to the claim. -/
theorem jfrog_fallback_raise_aborts_run :
    runJfrog []
      [⟨"pkg1", .ok [⟨"u1", "a-1.0-py3.whl"⟩], .ok [],
         fun _ => ⟨false, true, "d1", .ret ⟨true, none, none, none, "a-1.0-py3.whl"⟩, 0⟩⟩,
       ⟨"pkg2", .error "simple index down", .error "storage API down",
         fun _ => ⟨false, true, "d2", .ret ⟨true, none, none, none, ""⟩, 0⟩⟩,
       ⟨"pkg3", .ok [⟨"u3", "c-1.0-py3.whl"⟩], .ok [],
         fun _ => ⟨false, true, "d3", .ret ⟨true, none, none, none, "c-1.0-py3.whl"⟩, 0⟩⟩]
      true
    = (mark_uploaded [] "pkg1" "a-1.0-py3.whl" "d1"
         (some ⟨true, none, none, none, "a-1.0-py3.whl"⟩) 0,
       [.processed [.uploaded]], some "storage API down") := by
  decide

/-- Claim C2 (amended): in the Azure DevOps pipeline a package whose primary
index fetch raises and whose fallback API listing also fails is skipped with
a report and is not fatal: the packages before and after it are processed
exactly as they would be without it.  In the JFrog pipeline the same holds
only when the Artifactory fallback returns normally; a fallback that raises
propagates out of `mirror_package_from_jfrog` (see the counterexample). -/
theorem resolution_failure_nonfatal_cases :
    (∀ (st : Ledger) (pre post : List AzurePkg) (bad : AzurePkg) (w : Bool) (e1 e2 : String),
      bad.primary = .error e1 → bad.apiNames = .error e2 →
      runAzure st (pre ++ bad :: post) w =
        ((runAzure (runAzure st pre w).1 post w).1,
         (runAzure st pre w).2 ++ .enumerationFailed :: (runAzure (runAzure st pre w).1 post w).2)) ∧
    (∀ (st : Ledger) (p : JfrogPkg) (w : Bool) (e : String) (es : List Entry),
      p.primary = .error e → p.fallback = .ok es →
      ∃ out, mirror_package_from_jfrog st p w = .ok out) := by
  constructor
  · intro st pre post bad w e1 e2 h1 h2
    have hbad : ∀ s, mirror_package_from_azure s bad w = (s, .enumerationFailed) := by
      intro s
      unfold mirror_package_from_azure
      rw [h1, h2]
    induction pre generalizing st with
    | nil => simp [runAzure, hbad]
    | cons p pre ih => simp [runAzure, ih]
  · intro st p w e es h1 h2
    by_cases hge : (filterEntries es).isEmpty = true
    · exact ⟨(st, .noDistributions), by simp [mirror_package_from_jfrog, h1, h2, hge]⟩
    · exact ⟨((processEntries st p.name (filterEntries es) p.envs w 0).1,
        .processed (processEntries st p.name (filterEntries es) p.envs w 0).2),
        by simp [mirror_package_from_jfrog, h1, h2, hge]⟩

theorem resolution_failure_nonfatal_cases_witness :
    runAzure []
      [⟨"pkg1", .ok [⟨"u1", "a-1.0-py3.whl"⟩], .ok [], .ok [],
         fun _ => ⟨false, true, "d1", .ret ⟨true, none, none, none, "a-1.0-py3.whl"⟩, 0⟩⟩,
       ⟨"pkg2", .error "simple index down", .error "API listing down", .ok [],
         fun _ => ⟨false, true, "d2", .ret ⟨true, none, none, none, ""⟩, 0⟩⟩,
       ⟨"pkg3", .ok [⟨"u3", "c-1.0-py3.whl"⟩], .ok [], .ok [],
         fun _ => ⟨false, true, "d3", .ret ⟨true, none, none, none, "c-1.0-py3.whl"⟩, 0⟩⟩]
      true
    = (mark_uploaded
         (mark_uploaded [] "pkg1" "a-1.0-py3.whl" "d1"
           (some ⟨true, none, none, none, "a-1.0-py3.whl"⟩) 0)
         "pkg3" "c-1.0-py3.whl" "d3" (some ⟨true, none, none, none, "c-1.0-py3.whl"⟩) 0,
       [.processed [.uploaded], .enumerationFailed, .processed [.uploaded]]) := by
  have h := (resolution_failure_nonfatal_cases).1 []
    [⟨"pkg1", .ok [⟨"u1", "a-1.0-py3.whl"⟩], .ok [], .ok [],
       fun _ => ⟨false, true, "d1", .ret ⟨true, none, none, none, "a-1.0-py3.whl"⟩, 0⟩⟩]
    [⟨"pkg3", .ok [⟨"u3", "c-1.0-py3.whl"⟩], .ok [], .ok [],
       fun _ => ⟨false, true, "d3", .ret ⟨true, none, none, none, "c-1.0-py3.whl"⟩, 0⟩⟩]
    ⟨"pkg2", .error "simple index down", .error "API listing down", .ok [],
       fun _ => ⟨false, true, "d2", .ret ⟨true, none, none, none, ""⟩, 0⟩⟩
    true "simple index down" "API listing down" rfl rfl
  exact h.trans (by decide)

/-! ## Theorems about download atomicity -/

theorem applyOps_append (fs : FsState) (ops1 ops2 : List FsOp) :
    applyOps fs (ops1 ++ ops2) = applyOps (applyOps fs ops1) ops2 := by
  simp [applyOps, List.foldl_append]

/-- Operations other than the final rename never change the destination
path. -/
theorem dest_preserved_of_no_move (ops : List FsOp) :
    ∀ fs : FsState, (∀ op ∈ ops, op ≠ FsOp.movePartToDest) →
      (applyOps fs ops).dest = fs.dest := by
  induction ops with
  | nil => intro fs _; rfl
  | cons op rest ih =>
    intro fs h
    have hop : op ≠ FsOp.movePartToDest := h op (by simp)
    have hrest := ih (applyOp fs op) (fun o ho => h o (by simp [ho]))
    rw [show applyOps fs (op :: rest) = applyOps (applyOp fs op) rest from rfl, hrest]
    cases op with
    | openTrunc => rfl
    | writeChunk c => rfl
    | movePartToDest => exact absurd rfl hop

/-- Writing a chunk sequence to an open temp file appends it. -/
theorem writes_build_part (cs : List Nat) :
    ∀ (d : Option (List Nat)) (acc : List Nat),
      applyOps ⟨d, some acc⟩ (cs.map FsOp.writeChunk) = ⟨d, some (acc ++ cs)⟩ := by
  induction cs with
  | nil => intro d acc; simp [applyOps]
  | cons c rest ih =>
    intro d acc
    rw [List.map_cons,
      show applyOps ⟨d, some acc⟩ (FsOp.writeChunk c :: rest.map FsOp.writeChunk)
        = applyOps (applyOp ⟨d, some acc⟩ (FsOp.writeChunk c)) (rest.map FsOp.writeChunk) from rfl]
    simp [applyOp, ih]

/-- No operation of an interrupted or not-yet-renamed attempt is the rename. -/
theorem no_move_in_writes (cs : List Nat) :
    ∀ op ∈ FsOp.openTrunc :: cs.map FsOp.writeChunk, op ≠ FsOp.movePartToDest := by
  intro op hop
  rw [List.mem_cons] at hop
  rcases hop with rfl | h
  · simp
  · rcases List.mem_map.mp h with ⟨c, hc, hco⟩
    rw [← hco]
    simp

/-- Within one attempt, every prefix of the operation trace leaves the
destination unchanged, except the complete trace of a successful attempt,
which sets it to that attempt's full content. -/
theorem attempt_prefix_dest (a : DlAttempt) (C : List Nat)
    (hgood : ∀ cs, a = .success cs → cs = C) (fs : FsState) (p q : List FsOp)
    (hsplit : p ++ q = attemptOps a) :
    (applyOps fs p).dest = fs.dest ∨ (applyOps fs p).dest = some C := by
  cases a with
  | connectFailed e =>
    have h0 : p ++ q = ([] : List FsOp) := hsplit
    have hp : p = [] := (List.append_eq_nil.mp h0).1
    subst hp
    exact Or.inl rfl
  | interrupted ws e =>
    left
    refine dest_preserved_of_no_move p fs (fun op hop => ?_)
    have : op ∈ FsOp.openTrunc :: ws.map FsOp.writeChunk := by
      rw [show attemptOps (.interrupted ws e) = FsOp.openTrunc :: ws.map FsOp.writeChunk from rfl]
        at hsplit
      rw [← hsplit]
      exact List.mem_append_left q hop
    exact no_move_in_writes ws op this
  | success cs =>
    have hcs : cs = C := hgood cs rfl
    subst hcs
    have hops : attemptOps (.success cs) =
        (FsOp.openTrunc :: cs.map FsOp.writeChunk) ++ [FsOp.movePartToDest] := by
      simp [attemptOps]
    rw [hops] at hsplit
    rcases List.append_eq_append_iff.mp hsplit with ⟨r, hr1, hr2⟩ | ⟨r, hr1, hr2⟩
    · -- p is a prefix of the part before the rename
      left
      refine dest_preserved_of_no_move p fs (fun op hop => ?_)
      exact no_move_in_writes cs op (hr1 ▸ List.mem_append_left r hop)
    · -- p contains the whole pre-rename part
      cases r with
      | nil =>
        left
        rw [List.append_nil] at hr1
        subst hr1
        exact dest_preserved_of_no_move _ fs (no_move_in_writes cs)
      | cons x r2 =>
        have hr2' : x :: (r2 ++ q) = [FsOp.movePartToDest] := by
          simpa using hr2.symm
        injection hr2' with hx1 hx2
        have hr2nil : r2 = [] := (List.append_eq_nil.mp hx2).1
        subst hx1 hr2nil
        right
        subst hr1
        rw [applyOps_append]
        have hpre : applyOps fs (FsOp.openTrunc :: cs.map FsOp.writeChunk)
            = ⟨fs.dest, some cs⟩ := by
          rw [show applyOps fs (FsOp.openTrunc :: cs.map FsOp.writeChunk)
            = applyOps (applyOp fs .openTrunc) (cs.map FsOp.writeChunk) from rfl]
          rw [show applyOp fs .openTrunc = ⟨fs.dest, some ([] : List Nat)⟩ from rfl]
          rw [writes_build_part]
          simp
        rw [hpre]
        rfl

/-- Across a whole sequence of attempts whose successful streams all carry
content `C`, every prefix of the operation trace leaves the destination
either absent/unchanged-within-the-invariant or equal to the complete
content. -/
theorem downloadOps_prefix_dest (l : List DlAttempt) (C : List Nat)
    (hgood : ∀ a ∈ l, ∀ cs, a = DlAttempt.success cs → cs = C) :
    ∀ fs : FsState, (fs.dest = none ∨ fs.dest = some C) →
    ∀ p q : List FsOp, p ++ q = downloadOps l →
      (applyOps fs p).dest = none ∨ (applyOps fs p).dest = some C := by
  induction l with
  | nil =>
    intro fs hfs p q hsplit
    have hp : p = [] := by
      have : p ++ q = [] := by simpa [downloadOps] using hsplit
      exact (List.append_eq_nil.mp this).1
    subst hp
    exact hfs
  | cons a rest ih =>
    intro fs hfs p q hsplit
    have hsplit2 : p ++ q = attemptOps a ++ downloadOps rest := by
      simpa [downloadOps] using hsplit
    have hgood_a : ∀ cs, a = DlAttempt.success cs → cs = C :=
      hgood a (by simp)
    rcases List.append_eq_append_iff.mp hsplit2 with ⟨r, hr1, hr2⟩ | ⟨r, hr1, hr2⟩
    · -- p is a prefix of the first attempt's trace
      rcases attempt_prefix_dest a C hgood_a fs p r hr1.symm with h | h
      · rw [h]; exact hfs
      · exact Or.inr h
    · -- p spans the first attempt and a prefix of the rest
      subst hr1
      rw [applyOps_append]
      have hfs2 : (applyOps fs (attemptOps a)).dest = none ∨
          (applyOps fs (attemptOps a)).dest = some C := by
        rcases attempt_prefix_dest a C hgood_a fs (attemptOps a) [] (by simp) with h | h
        · rw [h]; exact hfs
        · exact Or.inr h
      exact ih (fun b hb => hgood b (by simp [hb])) (applyOps fs (attemptOps a)) hfs2 r q hr2.symm

/-- Every attempt the download loop executes is one of the supplied attempt
outcomes. -/
theorem downloadLoop_executed_mem (att : Nat → DlAttempt) (max_retries : Nat) :
    ∀ fuel k, max_retries - k = fuel →
      ∀ a ∈ (downloadLoop att max_retries k).executed, ∃ j, a = att j := by
  intro fuel
  induction fuel with
  | zero =>
    intro k hk a ha
    rw [downloadLoop.eq_def, dif_neg (by omega)] at ha
    simp at ha
  | succ n ih =>
    intro k hk a ha
    have hlt : k < max_retries := by omega
    rw [downloadLoop.eq_def, dif_pos hlt] at ha
    cases hA : att k with
    | success cs =>
      rw [hA] at ha
      simp at ha
      exact ⟨k, by rw [ha, hA]⟩
    | interrupted ws e =>
      rw [hA] at ha
      by_cases hb : k + 1 ≥ max_retries
      · simp [hb] at ha
        exact ⟨k, by rw [ha, hA]⟩
      · simp [hb] at ha
        rcases ha with ha | ha
        · exact ⟨k, by rw [ha, hA]⟩
        · exact ih (k + 1) (by omega) a ha
    | connectFailed e =>
      rw [hA] at ha
      by_cases hb : k + 1 ≥ max_retries
      · simp [hb] at ha
        exact ⟨k, by rw [ha, hA]⟩
      · simp [hb] at ha
        rcases ha with ha | ha
        · exact ⟨k, by rw [ha, hA]⟩
        · exact ih (k + 1) (by omega) a ha

/-- Claim C6: the download writes all streamed bytes to the sibling path
`dest + ".part"` (a path distinct from the destination) and renames onto the
destination only after the stream completes: starting from an absent
destination file, after any prefix of the operations of any run of the
retry loop — i.e. after a failure or interruption at any point of any
attempt — the destination holds either no file or the complete content. -/
theorem download_never_leaves_partial_dest
    (att : Nat → DlAttempt) (max_retries : Nat) (C : List Nat)
    (hgood : ∀ k cs, att k = .success cs → cs = C)
    (fs : FsState) (hdest : fs.dest = none) :
    (∀ dest_path : String, partPath dest_path ≠ dest_path) ∧
    ∀ p q : List FsOp,
      p ++ q = downloadOps (downloadLoop att max_retries 0).executed →
      (applyOps fs p).dest = none ∨ (applyOps fs p).dest = some C := by
  constructor
  · intro d h
    have hlen := congrArg String.length h
    rw [partPath, String.length_append] at hlen
    have h5 : ".part".length = 5 := by decide
    rw [h5] at hlen
    omega
  · intro p q hsplit
    refine downloadOps_prefix_dest (downloadLoop att max_retries 0).executed C
      (fun a ha cs hcs => ?_) fs (Or.inl hdest) p q hsplit
    obtain ⟨j, rfl⟩ := downloadLoop_executed_mem att max_retries
      (max_retries - 0) 0 rfl a ha
    exact hgood j cs hcs

theorem download_never_leaves_partial_dest_witness :
    (applyOps ⟨none, none⟩
      (downloadOps (downloadLoop
        (fun k => if k = 0 then .interrupted [1] "reset" else .success [1, 2, 3]) 3 0).executed)).dest
      = none ∨
    (applyOps ⟨none, none⟩
      (downloadOps (downloadLoop
        (fun k => if k = 0 then .interrupted [1] "reset" else .success [1, 2, 3]) 3 0).executed)).dest
      = some [1, 2, 3] := by
  have h := download_never_leaves_partial_dest
    (fun k => if k = 0 then .interrupted [1] "reset" else .success [1, 2, 3]) 3 [1, 2, 3]
    (by intro k cs hcs; revert hcs; by_cases hk : k = 0 <;> simp [hk] <;> intro h <;> exact h.symm)
    ⟨none, none⟩ rfl
  exact h.2 _ [] (by simp)

end FabricSync
